import Mathlib

/-
Verification development for the wizzyworks-bridge repository.

The development embeds, as executable Lean definitions, the state and the
message handling of WebSocketClient (websocket_client.py), the per frame
marker processing of ArucoScanner (aruco_scanner.py) and the integration
callbacks of WizzyWorksBridge (main.py), and proves or refutes the
documented properties of the system against those definitions.
-/

set_option autoImplicit false

namespace WizzyWorks

/-- JSON values as carried on the wire. Numbers are restricted to integers:
every id on the wire is integral, and the bridge never performs arithmetic
on payload numerics beyond the 0 to 1 range checks, which the claims only
exercise at integral points. -/
inductive Json where
  | null
  | bool (b : Bool)
  | num (n : Int)
  | str (s : String)
  | arr (elems : List Json)
  | obj (fields : List (String × Json))

/-- Lookup of a key in a JSON object field list, mirroring Python key access
on a dict parsed from JSON (first binding wins; json.loads keeps the last
duplicate, but the claims never use duplicate keys). -/
def getField (fields : List (String × Json)) (k : String) : Option Json :=
  (fields.find? (fun p => p.1 == k)).map (fun p => p.2)

/-- Mirrors data.get(k, None) in Python: a missing key yields null. -/
def getD (fields : List (String × Json)) (k : String) : Json :=
  (getField fields k).getD Json.null

/-- Value of a decimal digit character, when it is one. -/
def digitVal (c : Char) : Option Nat :=
  if c.isDigit then some (c.toNat - 48) else none

/-- Accumulating conversion of a digit character list to a natural number,
failing on the first non digit. -/
def digitsToNat (acc : Nat) : List Char → Option Nat
  | [] => some acc
  | c :: rest =>
      match digitVal c with
      | some d => digitsToNat (acc * 10 + d) rest
      | none => none

/-- Mirrors Python int(s) on a string: an optional sign followed by one or
more decimal digits; anything else raises ValueError, modeled as none.
The tolerance of Python for surrounding whitespace and for underscore
separators is not modeled; no claim exercises it. -/
def pyStrToInt (s : String) : Option Int :=
  match s.toList with
  | [] => none
  | '-' :: rest =>
      match rest with
      | [] => none
      | _ => (digitsToNat 0 rest).map (fun n => -(n : Int))
  | '+' :: rest =>
      match rest with
      | [] => none
      | _ => (digitsToNat 0 rest).map (fun n => (n : Int))
  | l => (digitsToNat 0 l).map (fun n => (n : Int))

/-- Mirrors the Python int(x) conversion as applied to a JSON value: an
integer stays itself, a numeric string parses, a boolean maps to 0 or 1,
and anything else raises, modeled as none. -/
def pyInt : Json → Option Int
  | Json.num n => some n
  | Json.str s => pyStrToInt s
  | Json.bool b => some (if b then 1 else 0)
  | _ => none

/-- The aruco data store of WebSocketClient: a Python dict from int ids to
payloads, modeled as an insertion ordered association list with unique keys
maintained by the update operation. -/
abbrev Store := List (Int × Json)

/-- Mirrors d[k] = v on a Python dict: update in place when the key is
present, append otherwise. -/
def dictSet (d : Store) (k : Int) (v : Json) : Store :=
  match d with
  | [] => [(k, v)]
  | (k0, v0) :: rest =>
      if k0 == k then (k0, v) :: rest else (k0, v0) :: dictSet rest k v

/-- Mirrors d.get(k): the value at the key, if present. -/
def dictGet (d : Store) (k : Int) : Option Json :=
  (d.find? (fun p => p.1 == k)).map (fun p => p.2)

/-- Mirrors k in d on a Python dict. -/
def dictHas (d : Store) (k : Int) : Bool :=
  d.any (fun p => p.1 == k)

/-- Mirrors del d[k]: removal of a binding. -/
def dictRemove (d : Store) (k : Int) : Store :=
  d.filter (fun p => ! (p.1 == k))

/-- Test whether an optional JSON value is a given string, mirroring the
Python comparison data.get(cmd) == s. -/
def isStrVal (o : Option Json) (s : String) : Bool :=
  match o with
  | some (Json.str t) => t == s
  | _ => false

/-- The loop body of the aruco_ids branch of WebSocketClient parse handling:
assignments are applied one id at a time, so a conversion failure partway
through keeps the assignments already made (the exception is caught by the
surrounding handler and the method returns False). -/
def setMany (store : Store) (ids : List Json) (payload : Json) : Store × Bool :=
  match ids with
  | [] => (store, true)
  | v :: rest =>
      match pyInt v with
      | some k => setMany (dictSet store k payload) rest payload
      | none => (store, false)

/-- Membership of a string key in an object field list, mirroring the
Python membership test k in data on a dict. -/
def hasKey (fields : List (String × Json)) (k : String) : Bool :=
  fields.any (fun p => p.1 == k)

/-- One incoming message applied to the stored aruco data, mirroring the
parse method of WebSocketClient: the updated store paired with the boolean
the method returns. Invalid JSON is modeled as none (json.loads raised and
the handler logged it, leaving the store untouched). A non object JSON
value reaches no handler branch without mutating the store: membership
tests or indexing on it raise, the exception is caught, and the method
returns False. The branch order matches the elif chain of the source: the
single id branch tests key presence first, so a clear command that carries
the aruco_id key is consumed by the single id branch and the dedicated
clear branch below it is unreachable. -/
def parseMessage (msg : Option Json) (store : Store) : Store × Bool :=
  match msg with
  | none => (store, false)
  | some (Json.obj fields) =>
      match getField fields "aruco_id" with
      | some idv =>
          match pyInt idv with
          | some k => (dictSet store k (getD fields "data"), true)
          | none => (store, false)
      | none =>
          match getField fields "aruco_ids" with
          | some (Json.arr ids) => setMany store ids (getD fields "data")
          | some (Json.str s) =>
              setMany store (s.toList.map (fun c => Json.str (String.singleton c)))
                (getD fields "data")
          | some _ => (store, false)
          | none =>
              if isStrVal (getField fields "command") "reset" then ([], true)
              else if isStrVal (getField fields "command") "clear"
                  && hasKey fields "aruco_id" then
                match pyInt (getD fields "aruco_id") with
                | some k =>
                    (if dictHas store k then dictRemove store k else store, true)
                | none => (store, false)
              else (store, false)
  | some _ => (store, false)

/-- One detector reading of one marker: integer id, pixel coordinates of
the marker center, and the sampling instant. Coordinates and timestamps
are modeled as integers: the scan loop never reads them, the stability
predicates of the specification compare squared distances, and every
scenario of the claims is sampled at integral points, so exact integer
arithmetic loses nothing. -/
structure Obs where
  x : Int
  y : Int
  t : Int

/-- One detected marker of one frame as handed to the scan loop body. -/
structure Detection where
  id : Int
  x : Int
  y : Int

/-- Scanner state, mirroring the tracking fields of ArucoScanner: the
position history dict, the watched target ids with their payloads, and
the set of already triggered ids. The active scan loop never appends to
the position history and its cleanup block is commented out in the
source, so the history component stays at its initial empty value for
the whole run; it is kept in the state so that the claims about it can
be stated. -/
structure ScannerState where
  markerPositions : List (Int × List Obs)
  targetIds : Store
  triggeredIds : List Int

/-- Lookup of the retained history of one id. -/
def lookupHist (h : List (Int × List Obs)) (k : Int) : Option (List Obs) :=
  (h.find? (fun p => p.1 == k)).map (fun p => p.2)

/-- Observable outcome of one ingest of one observation, in the vocabulary
of the specification: none for a marker that is not a target, fire for the
edge that dispatches the handler, alreadyTriggered for a suppressed repeat. -/
inductive TriggerDecision where
  | none
  | fire
  | alreadyTriggered
deriving DecidableEq

/-- One dispatched handler invocation: the marker id, the payload stored
for it, and the normalized horizontal position computed by the scan loop
as center over width times two minus one. -/
structure Dispatch where
  id : Int
  payload : Json
  normalizedX : ℚ

/-- Processing of one detected marker inside the scan loop: a marker
outside the target dict is ignored for triggering; a targeted marker not
yet in the triggered set is added to the set and the handler is invoked,
any handler exception being caught and logged; a targeted marker already
in the set is skipped. The throws argument tells on which marker ids the
user handler raises; the last component records whether an exception was
caught during the dispatch. Note that the triggered set is extended
before the handler runs, so a handler failure never rolls it back. -/
def processMarker (throws : Int → Bool) (frameWidth : Int) (st : ScannerState)
    (d : Detection) : ScannerState × TriggerDecision × Option Dispatch × Bool :=
  if dictHas st.targetIds d.id then
    if st.triggeredIds.contains d.id then
      (st, TriggerDecision.alreadyTriggered, Option.none, false)
    else
      ({ st with triggeredIds := d.id :: st.triggeredIds },
        TriggerDecision.fire,
        some { id := d.id,
               payload := (dictGet st.targetIds d.id).getD Json.null,
               normalizedX := (d.x : ℚ) / (frameWidth : ℚ) * 2 - 1 },
        throws d.id)
  else
    (st, TriggerDecision.none, Option.none, false)

/-- Processing of the detection list of one frame, marker by marker in
order, threading the scanner state; each output entry carries the decision,
the dispatch performed if any, and whether a handler exception was caught.
A caught exception does not stop the iteration: the remaining markers of
the frame are still processed. -/
def processFrame (throws : Int → Bool) (frameWidth : Int) (st : ScannerState) :
    List Detection → ScannerState × List (TriggerDecision × Option Dispatch × Bool)
  | [] => (st, [])
  | d :: rest =>
      let r := processMarker throws frameWidth st d
      let q := processFrame throws frameWidth r.1 rest
      (q.1, (r.2.1, r.2.2.1, r.2.2.2) :: q.2)

/-- End of frame cleanup for markers not visible in the current frame. The
cleanup block of the scan loop is commented out in the source, so the
sweep performs no state change: no history is purged and no triggered
flag is cleared, whatever the visible id set and the current time are. -/
def frameCleanup (visibleIds : List Int) (now : Int) (st : ScannerState) : ScannerState :=
  st

/-- Mirrors set_target_id: store or overwrite the payload of the id in the
target dict and discard the id from the triggered set, allowing the id to
trigger again. -/
def setTargetId (st : ScannerState) (newId : Int) (data : Json) : ScannerState :=
  { st with targetIds := dictSet st.targetIds newId data,
            triggeredIds := st.triggeredIds.filter (fun k => ! (k == newId)) }

/-- Mirrors reset_triggered_ids: empty the triggered set. -/
def resetTriggeredIds (st : ScannerState) : ScannerState :=
  { st with triggeredIds := [] }

/-- Initial scanner state watching a single target id with one payload: the
shape produced by one setTargetId call on a fresh scanner. -/
def singleTarget (id : Int) (payload : Json) : ScannerState :=
  { markerPositions := [], targetIds := [(id, payload)], triggeredIds := [] }

/-- One ingest of one observation of one id: the scan loop iteration for a
frame whose detection list contains exactly that marker, at the default
capture width, with a handler that does not raise. -/
def ingestStep (st : ScannerState) (id : Int) (o : Obs) : ScannerState × TriggerDecision :=
  let r := processFrame (fun _ => false) 1920 st [{ id := id, x := o.x, y := o.y }]
  (r.1, ((r.2.map (fun e => e.1)).headD TriggerDecision.none))

/-- Ingest of a chronological observation list of one id, frame by frame,
collecting the decision of each call. -/
def ingestRun (st : ScannerState) (id : Int) : List Obs → ScannerState × List TriggerDecision
  | [] => (st, [])
  | o :: rest =>
      let p := ingestStep st id o
      let q := ingestRun p.1 id rest
      (q.1, p.2 :: q.2)

/-- Effects observable at the boundary of the client listen method. -/
inductive WireEffect where
  | cbConnected
  | cbMessage (raw : Option Json)
  | cbAruco (snapshot : Store)
  | cbDisconnected
  | sendJson (payload : Json)

/-- Recognizer of outbound send effects. -/
def isSendEffect : WireEffect → Bool
  | WireEffect.sendJson _ => true
  | _ => false

/-- Count of outbound send effects of a trace. -/
def countSends (es : List WireEffect) : Nat :=
  es.countP (fun e => isSendEffect e)

/-- Receive loop of the client listen method: each message is handed to the
message callback, then parsed, and on a successful parse the aruco callback
receives a copy of the updated store. -/
def listenLoop : List (Option Json) → Store → Store × List WireEffect
  | [], store => (store, [])
  | m :: rest, store =>
      let r := parseMessage m store
      let q := listenLoop rest r.1
      (q.1, WireEffect.cbMessage m ::
        ((if r.2 then [WireEffect.cbAruco r.1] else []) ++ q.2))

/-- Effect trace of one successful connection of the client listen method:
after the socket is established the method stores the socket handle, logs,
and invokes the connected callback; it then enters the receive loop
directly, and on exit the disconnected callback runs. The source performs
no outbound send between the connect and the receive loop. -/
def listenEffects (msgs : List (Option Json)) (store : Store) : Store × List WireEffect :=
  let r := listenLoop msgs store
  (r.1, WireEffect.cbConnected :: (r.2 ++ [WireEffect.cbDisconnected]))

/-- The identification message the specification expects on connect. -/
def bridgeHello : Json := Json.obj [("type", Json.str "bridge")]

/-- State of the integrated bridge: the aruco data store owned by the
client and the scanner state. -/
structure BridgeState where
  store : Store
  scanner : ScannerState

/-- String typed JSON value recognizer, mirroring isinstance checks. -/
def isStrJson : Json → Bool
  | Json.str _ => true
  | _ => false

/-- List typed JSON value recognizer, mirroring isinstance checks. -/
def isArrJson : Json → Bool
  | Json.arr _ => true
  | _ => false

/-- One color component check of the bridge validator: isinstance of int or
float and between 0 and 1. Python booleans are instances of int, so they
pass with values 0 and 1. -/
def colorComponentOk : Json → Bool
  | Json.num n => decide (0 ≤ n) && decide (n ≤ 1)
  | Json.bool _ => true
  | _ => false

/-- Presence and type check of one required payload key of the validator. -/
def requiredKeyOk (payload : List (String × Json)) (k : String)
    (tyCheck : Json → Bool) : Bool :=
  match getField payload k with
  | some v => tyCheck v
  | none => false

/-- Color list check of the validator: exactly three components, each a
number between 0 and 1. -/
def colorFieldOk (payload : List (String × Json)) (k : String) : Bool :=
  match getField payload k with
  | some (Json.arr xs) => (xs.length == 3) && xs.all colorComponentOk
  | _ => false

/-- The data validator of the bridge: the message is a dict carrying a dict
under the data key, whose payload holds the four required keys with the
required types, the two color lists each being three components in the
0 to 1 range. -/
def validateData : Json → Bool
  | Json.obj fields =>
      match getField fields "data" with
      | some (Json.obj payload) =>
          requiredKeyOk payload "outer_layer" isStrJson &&
          requiredKeyOk payload "outer_layer_color" isArrJson &&
          requiredKeyOk payload "outer_layer_second_color" isArrJson &&
          requiredKeyOk payload "inner_layer" isStrJson &&
          colorFieldOk payload "outer_layer_color" &&
          colorFieldOk payload "outer_layer_second_color"
      | _ => false
  | _ => false

/-- One received message as processed by the integrated bridge. The message
callback registered by the bridge runs first: it decodes the raw text, and
on a decode failure it logs and returns. When validation succeeds it builds
a status reply from the value at key id, which raises KeyError when that
key is absent, tearing the connection down before the parse method runs;
otherwise it hands the id and the whole message to setTargetId. A non
integer id value would create a target entry no integer marker id can ever
match, which the integer keyed target model represents as no change. After
the message callback, the parse method of the client updates the store,
and on a successful parse the aruco callback is invoked; the callback
registered by the bridge takes two parameters while the client invokes it
with one, so that invocation raises TypeError before the callback body
runs, tearing the connection down with no scanner effect. The boolean
result records whether the connection was torn down by such an uncaught
callback exception. -/
def bridgeStep (raw : Option Json) (st : BridgeState) : BridgeState × Bool :=
  let step1 : ScannerState × Bool :=
    match raw with
    | Option.none => (st.scanner, false)
    | some m =>
        if validateData m then
          match m with
          | Json.obj fields =>
              match getField fields "id" with
              | Option.none => (st.scanner, true)
              | some (Json.num n) => (setTargetId st.scanner n m, false)
              | some _ => (st.scanner, false)
          | _ => (st.scanner, false)
        else (st.scanner, false)
  if step1.2 then ({ st with scanner := step1.1 }, true)
  else
    let r := parseMessage raw st.store
    ({ store := r.1, scanner := step1.1 }, r.2)

/-- Squared Euclidean distance of two observations. Comparing it with the
squared threshold is equivalent to comparing distances for a nonnegative
threshold, and keeps the arithmetic exact. -/
def distSq (a b : Obs) : Int :=
  (a.x - b.x) ^ 2 + (a.y - b.y) ^ 2

/-- Strictly increasing sampling instants. -/
def chronB : List Obs → Bool
  | [] => true
  | [_] => true
  | a :: b :: rest => decide (a.t < b.t) && chronB (b :: rest)

/-- Every pair of observations of the list lies within the threshold. -/
def pairwiseStableB (thr : Int) (l : List Obs) : Bool :=
  l.all (fun a => l.all (fun b => decide (distSq a b ≤ thr ^ 2)))

/-- The list spans at least the given duration from its first to its last
sampling instant. -/
def spanB (dur : Int) (l : List Obs) : Bool :=
  match l.head?, l.getLast? with
  | some a, some b => decide (b.t - a.t ≥ dur)
  | _, _ => false

/-- Consecutive sampling instants of the list are at most the given gap
apart: the id is observed continuously, with no absence worth the grace
period inside the episode. -/
def stepGapB (g : Int) : List Obs → Bool
  | [] => true
  | [_] => true
  | a :: b :: rest => decide (b.t - a.t ≤ g) && stepGapB g (b :: rest)

/-- The second episode starts at least the given gap after the first one
ends: the id is absent between them for at least that long. -/
def gapB (g : Int) (e1 e2 : List Obs) : Bool :=
  match e1.getLast?, e2.head? with
  | some a, some b => decide (b.t - a.t ≥ g)
  | _, _ => false

/-- Some two observations of the list lie within one stability window of
each other yet farther apart than the threshold: the marker moved while
inside the active window. -/
def movedB (thr window : Int) (l : List Obs) : Bool :=
  l.any (fun a => l.any (fun b =>
    decide (a.t - b.t ≤ window) && decide (b.t - a.t ≤ window) &&
    decide (distSq a b > thr ^ 2)))

/-- Number of fire decisions of a decision list. -/
def countFire (ds : List TriggerDecision) : Nat :=
  ds.count TriggerDecision.fire

/-- After the first fire decision of the list, every later decision is
alreadyTriggered. -/
def afterFireAllAlready : List TriggerDecision → Bool
  | [] => true
  | TriggerDecision.fire :: rest =>
      rest.all (fun d => d == TriggerDecision.alreadyTriggered)
  | _ :: rest => afterFireAllAlready rest

/-- Claim C1 as stated, for stability parameters thr in pixels and dur in
seconds: over any two chronological, threshold stable, continuously
observed episodes of one watched id, separated by an absence of at least
twice dur, the tracker fires exactly once during the first episode, every
later call of that episode returns alreadyTriggered, and the absence
re-arms the id, so the second stable episode fires exactly once again. -/
def claimC1Prop (thr dur : Int) : Prop :=
  ∀ (id : Int) (payload : Json) (e1 e2 : List Obs),
    chronB (e1 ++ e2) = true →
    pairwiseStableB thr e1 = true → spanB dur e1 = true → stepGapB dur e1 = true →
    pairwiseStableB thr e2 = true → spanB dur e2 = true → stepGapB dur e2 = true →
    gapB (2 * dur) e1 e2 = true →
    countFire ((ingestRun (singleTarget id payload) id (e1 ++ e2)).2.take e1.length) = 1 ∧
    afterFireAllAlready ((ingestRun (singleTarget id payload) id (e1 ++ e2)).2.take e1.length) = true ∧
    countFire ((ingestRun (singleTarget id payload) id (e1 ++ e2)).2.drop e1.length) = 1

/-- Claim C2 as stated: when some two observations of a span of one watched
id lie within one stability window of each other yet farther apart than
the threshold, no ingest call of the span fires. -/
def claimC2Prop (thr dur : Int) : Prop :=
  ∀ (id : Int) (payload : Json) (l : List Obs),
    chronB l = true →
    movedB thr dur l = true →
    countFire ((ingestRun (singleTarget id payload) id l).2) = 0

/-- Claim C3 as stated, for a stability duration dur. First conjunct: for
any state and frame whose visible id set misses a tracked id whose newest
retained history entry is older than twice dur, the per frame sweep purges
the history of that id and clears its triggered flag. Second conjunct,
soleness: the sweep is the only path that re-arms a previously fired id,
so in particular setTargetId preserves membership of the triggered set. -/
def claimC3Prop (dur : Int) : Prop :=
  (∀ (st : ScannerState) (visible : List Int) (id : Int) (now : Int) (hist : List Obs),
      lookupHist st.markerPositions id = some hist →
      visible.contains id = false →
      (match hist.getLast? with
       | some o => decide (now - o.t > 2 * dur)
       | Option.none => true) = true →
      lookupHist (frameCleanup visible now st).markerPositions id = Option.none ∧
      (frameCleanup visible now st).triggeredIds.contains id = false) ∧
  (∀ (st : ScannerState) (id : Int) (data : Json),
      st.triggeredIds.contains id = true →
      (setTargetId st id data).triggeredIds.contains id = true)

/-- Claim C4 as stated: the parser applies update and clear messages keyed
by id, exactly per the wire protocol table of the specification. -/
def claimC4Prop : Prop :=
  ∀ (store : Store) (n : Int) (p : Json),
    parseMessage (some (Json.obj [("id", Json.num n), ("data", p)])) store
      = (dictSet store n p, true) ∧
    parseMessage (some (Json.obj [("command", Json.str "clear"), ("id", Json.num n)])) store
      = (dictRemove store n, true)

/-- Claim C5 as stated: whenever processing a message fails, which the
parse method reports by returning False and covers invalid JSON and every
message whose handling raised an error, the store is left entirely
unchanged, so in particular a multi id update failing partway leaves the
store as it was. -/
def claimC5Prop : Prop :=
  ∀ (msg : Option Json) (store : Store),
    (parseMessage msg store).2 = false → (parseMessage msg store).1 = store

/-- Claim C6 as stated: every successful connection sends exactly one
outbound identification message over its whole effect trace, of the shape
type bridge, before entering the receive loop. The count captures the
exactly once part, which the source already fails. -/
def claimC6Prop : Prop :=
  ∀ (msgs : List (Option Json)) (store : Store),
    countSends ((listenEffects msgs store).2) = 1 ∧
    ∃ (pre post : List WireEffect),
      (listenEffects msgs store).2 = pre ++ WireEffect.sendJson bridgeHello :: post

/-- Snapshot of the store: get_aruco_data returns a copy of the dict. Under
the value semantics of the embedding the copy is the value itself; the
freshness of the copy is expressed by the registry contract theorem, which
states that the snapshot agrees with the store at the moment it is taken
and that mutations build new store values. -/
def snapshot (store : Store) : Store :=
  store

/-- Mirrors clear_aruco_data and the reset command: the store becomes
empty, whatever it held. -/
def clearStore (store : Store) : Store :=
  []

/-- The remove operation of the registry as written in the clear branch of
the parse method: a guarded del, so a missing id is a no-op and never an
error. -/
def removeId (store : Store) (k : Int) : Store :=
  if dictHas store k then dictRemove store k else store

theorem dictGet_dictSet_self (d : Store) (k : Int) (v : Json) :
    dictGet (dictSet d k v) k = some v := by
  induction d with
  | nil => simp [dictSet, dictGet]
  | cons p rest ih =>
      obtain ⟨k0, v0⟩ := p
      by_cases h : k0 == k
      · simp [dictSet, dictGet, h]
      · simp only [dictSet, h, Bool.false_eq_true, if_false]
        simpa [dictGet, h] using ih

theorem dictHas_dictSet_self (d : Store) (k : Int) (v : Json) :
    dictHas (dictSet d k v) k = true := by
  induction d with
  | nil => simp [dictSet, dictHas]
  | cons p rest ih =>
      obtain ⟨k0, v0⟩ := p
      by_cases h : k0 == k
      · simp [dictSet, dictHas, h]
      · simp only [dictSet, h, Bool.false_eq_true, if_false]
        simpa [dictHas, h] using ih

theorem dictHas_dictSet_mono (d : Store) (k j : Int) (v : Json)
    (h : dictHas d j = true) : dictHas (dictSet d k v) j = true := by
  induction d with
  | nil => simp [dictHas] at h
  | cons p rest ih =>
      obtain ⟨k0, v0⟩ := p
      by_cases hk : k0 == k
      · have hj := h
        simp only [dictHas, List.any_cons] at hj
        rcases Bool.or_eq_true_iff.mp hj with hj1 | hj2
        · simp [dictSet, dictHas, hk]
          left
          have : k0 = k := by simpa using hk
          have : k0 = j := by simpa using hj1
          simp [← this]
        · simp [dictSet, dictHas, hk, hj2]
      · have hj := h
        simp only [dictHas, List.any_cons] at hj
        rcases Bool.or_eq_true_iff.mp hj with hj1 | hj2
        · simp [dictSet, dictHas, hk, hj1]
        · have := ih hj2
          simp [dictSet, dictHas, hk]
          right
          simpa [dictHas] using this

theorem contains_filter_ne_self (l : List Int) (id : Int) :
    (l.filter (fun k => ! (k == id))).contains id = false := by
  simp [List.mem_filter]

theorem processMarker_targetIds (throws : Int → Bool) (w : Int)
    (st : ScannerState) (d : Detection) :
    (processMarker throws w st d).1.targetIds = st.targetIds := by
  unfold processMarker
  split <;> [skip; rfl]
  split <;> rfl

theorem processMarker_markerPositions (throws : Int → Bool) (w : Int)
    (st : ScannerState) (d : Detection) :
    (processMarker throws w st d).1.markerPositions = st.markerPositions := by
  unfold processMarker
  split <;> [skip; rfl]
  split <;> rfl

theorem processMarker_state_of_throws (throws : Int → Bool) (w : Int)
    (st : ScannerState) (d : Detection) :
    (processMarker throws w st d).1 = (processMarker (fun _ => false) w st d).1 := by
  unfold processMarker
  split <;> [skip; rfl]
  split <;> rfl

theorem processMarker_obs_of_throws (throws : Int → Bool) (w : Int)
    (st : ScannerState) (d : Detection) :
    ((processMarker throws w st d).2.1, (processMarker throws w st d).2.2.1)
      = ((processMarker (fun _ => false) w st d).2.1,
         (processMarker (fun _ => false) w st d).2.2.1) := by
  unfold processMarker
  split <;> [skip; rfl]
  split <;> rfl

theorem contains_cons_self (l : List Int) (id : Int) :
    (id :: l).contains id = true := by
  simp

theorem contains_cons_mono (l : List Int) (a id : Int)
    (h : l.contains id = true) : (a :: l).contains id = true := by
  simp at h ⊢
  exact Or.inr h

theorem processMarker_triggered_mono (throws : Int → Bool) (w : Int)
    (st : ScannerState) (d : Detection) (id : Int)
    (h : st.triggeredIds.contains id = true) :
    (processMarker throws w st d).1.triggeredIds.contains id = true := by
  unfold processMarker
  split <;> [skip; exact h]
  split
  · exact h
  · exact contains_cons_mono st.triggeredIds d.id id h

theorem processMarker_triggered_of_target (throws : Int → Bool) (w : Int)
    (st : ScannerState) (d : Detection)
    (h : dictHas st.targetIds d.id = true) :
    (processMarker throws w st d).1.triggeredIds.contains d.id = true := by
  unfold processMarker
  rw [h]
  simp only [if_true]
  split
  · next hc => exact hc
  · exact contains_cons_self st.triggeredIds d.id

theorem processFrame_targetIds (throws : Int → Bool) (w : Int)
    (st : ScannerState) (ds : List Detection) :
    (processFrame throws w st ds).1.targetIds = st.targetIds := by
  induction ds generalizing st with
  | nil => rfl
  | cons d rest ih =>
      simp only [processFrame]
      rw [ih, processMarker_targetIds]

theorem processFrame_triggered_mono (throws : Int → Bool) (w : Int)
    (st : ScannerState) (ds : List Detection) (id : Int)
    (h : st.triggeredIds.contains id = true) :
    (processFrame throws w st ds).1.triggeredIds.contains id = true := by
  induction ds generalizing st with
  | nil => exact h
  | cons d rest ih =>
      simp only [processFrame]
      exact ih _ (processMarker_triggered_mono throws w st d id h)

theorem processFrame_state_of_throws (throws : Int → Bool) (w : Int)
    (st : ScannerState) (ds : List Detection) :
    (processFrame throws w st ds).1 = (processFrame (fun _ => false) w st ds).1 := by
  induction ds generalizing st with
  | nil => rfl
  | cons d rest ih =>
      simp only [processFrame]
      rw [ih, processMarker_state_of_throws]

theorem processFrame_obs_of_throws (throws : Int → Bool) (w : Int)
    (st : ScannerState) (ds : List Detection) :
    (processFrame throws w st ds).2.map (fun e => (e.1, e.2.1))
      = (processFrame (fun _ => false) w st ds).2.map (fun e => (e.1, e.2.1)) := by
  induction ds generalizing st with
  | nil => rfl
  | cons d rest ih =>
      simp only [processFrame, List.map_cons]
      rw [processMarker_state_of_throws, ih]
      have hobs := processMarker_obs_of_throws throws w st d
      have h1 : (processMarker throws w st d).2.1
          = (processMarker (fun _ => false) w st d).2.1 :=
        congrArg (fun q => q.1) hobs
      have h2 : (processMarker throws w st d).2.2.1
          = (processMarker (fun _ => false) w st d).2.2.1 :=
        congrArg (fun q => q.2) hobs
      rw [h1, h2]

theorem ingestStep_already (st : ScannerState) (id : Int) (o : Obs)
    (hT : dictHas st.targetIds id = true)
    (hG : st.triggeredIds.contains id = true) :
    ingestStep st id o = (st, TriggerDecision.alreadyTriggered) := by
  have hm : id ∈ st.triggeredIds := by simpa using hG
  simp [ingestStep, processFrame, processMarker, hT, hm]

theorem ingestStep_fresh (st : ScannerState) (id : Int) (o : Obs)
    (hT : dictHas st.targetIds id = true)
    (hG : st.triggeredIds.contains id = false) :
    ingestStep st id o
      = ({ st with triggeredIds := id :: st.triggeredIds }, TriggerDecision.fire) := by
  have hm : id ∉ st.triggeredIds := by simpa using hG
  simp [ingestStep, processFrame, processMarker, hT, hm]

theorem ingestRun_already (st : ScannerState) (id : Int) (l : List Obs)
    (hT : dictHas st.targetIds id = true)
    (hG : st.triggeredIds.contains id = true) :
    ingestRun st id l = (st, List.replicate l.length TriggerDecision.alreadyTriggered) := by
  induction l with
  | nil => rfl
  | cons o rest ih =>
      simp [ingestRun, ingestStep_already st id o hT hG, ih, List.replicate]

theorem ingestRun_fresh (st : ScannerState) (id : Int) (o : Obs) (rest : List Obs)
    (hT : dictHas st.targetIds id = true)
    (hG : st.triggeredIds.contains id = false) :
    ingestRun st id (o :: rest)
      = ({ st with triggeredIds := id :: st.triggeredIds },
         TriggerDecision.fire ::
           List.replicate rest.length TriggerDecision.alreadyTriggered) := by
  have h2G : (id :: st.triggeredIds).contains id = true := contains_cons_self _ _
  have h2T : dictHas
      ({ st with triggeredIds := id :: st.triggeredIds } : ScannerState).targetIds id
      = true := hT
  simp [ingestRun, ingestStep_fresh st id o hT hG,
    ingestRun_already _ id rest h2T h2G]

theorem singleTarget_has (id : Int) (payload : Json) :
    dictHas (singleTarget id payload).targetIds id = true := by
  simp [singleTarget, dictHas]

theorem ingestRun_singleTarget (id : Int) (payload : Json) (o : Obs) (rest : List Obs) :
    (ingestRun (singleTarget id payload) id (o :: rest)).2
      = TriggerDecision.fire ::
          List.replicate rest.length TriggerDecision.alreadyTriggered := by
  rw [ingestRun_fresh _ _ _ _ (singleTarget_has id payload) rfl]

theorem countFire_replicate (n : Nat) :
    countFire (List.replicate n TriggerDecision.alreadyTriggered) = 0 := by
  induction n with
  | zero => rfl
  | succ m ih =>
      simpa [List.replicate, countFire, List.count_cons] using ih

theorem countFire_fire_cons_replicate (n : Nat) :
    countFire (TriggerDecision.fire ::
      List.replicate n TriggerDecision.alreadyTriggered) = 1 := by
  have := countFire_replicate n
  simpa [countFire, List.count_cons] using this

theorem all_already_replicate (n : Nat) :
    (List.replicate n TriggerDecision.alreadyTriggered).all
      (fun d => d == TriggerDecision.alreadyTriggered) = true := by
  simp [List.all_eq_true, List.mem_replicate]

theorem countFire_of_sublist_already {l : List TriggerDecision} {k : Nat}
    (h : l.Sublist (List.replicate k TriggerDecision.alreadyTriggered)) :
    countFire l = 0 := by
  have hle := h.count_le TriggerDecision.fire
  have h0 := countFire_replicate k
  simp only [countFire] at h0 ⊢
  omega

theorem processFrame_triggered_of_mem (throws : Int → Bool) (w : Int)
    (st : ScannerState) (ds : List Detection) (d : Detection) :
    d ∈ ds → dictHas st.targetIds d.id = true →
    (processFrame throws w st ds).1.triggeredIds.contains d.id = true := by
  induction ds generalizing st with
  | nil =>
      intro hd
      cases hd
  | cons d0 rest ih =>
      intro hd hT
      rcases List.mem_cons.mp hd with hEq | hMem
      · subst hEq
        simp only [processFrame]
        exact processFrame_triggered_mono throws w _ rest d.id
          (processMarker_triggered_of_target throws w st d hT)
      · simp only [processFrame]
        exact ih _ hMem (by rw [processMarker_targetIds]; exact hT)

theorem listenLoop_no_send (msgs : List (Option Json)) (store : Store) :
    ∀ e ∈ (listenLoop msgs store).2, isSendEffect e = false := by
  induction msgs generalizing store with
  | nil =>
      intro e he
      cases he
  | cons m rest ih =>
      intro e he
      simp only [listenLoop, List.mem_cons] at he
      rcases he with rfl | he2
      · rfl
      · rcases List.mem_append.mp he2 with hIf | hq
        · by_cases hb : (parseMessage m store).2 = true
          · rw [if_pos hb] at hIf
            rcases List.mem_singleton.mp hIf with rfl
            rfl
          · rw [if_neg hb] at hIf
            cases hIf
        · exact ih _ e hq

theorem bridgeStep_scanner_cases (raw : Option Json) (st : BridgeState) :
    (bridgeStep raw st).1.scanner = st.scanner ∨
    ∃ (n : Int) (m : Json),
      (bridgeStep raw st).1.scanner = setTargetId st.scanner n m := by
  cases raw with
  | none => exact Or.inl rfl
  | some m =>
      cases m with
      | null => exact Or.inl rfl
      | bool b => exact Or.inl rfl
      | num n => exact Or.inl rfl
      | str s => exact Or.inl rfl
      | arr elems => exact Or.inl rfl
      | obj fields =>
          by_cases hv : validateData (Json.obj fields) = true
          · rcases hid : getField fields "id" with _ | v
            · exact Or.inl (by simp [bridgeStep, hv, hid])
            · cases v with
              | num n =>
                  exact Or.inr ⟨n, Json.obj fields, by simp [bridgeStep, hv, hid]⟩
              | null => exact Or.inl (by simp [bridgeStep, hv, hid])
              | bool b => exact Or.inl (by simp [bridgeStep, hv, hid])
              | str s => exact Or.inl (by simp [bridgeStep, hv, hid])
              | arr elems => exact Or.inl (by simp [bridgeStep, hv, hid])
              | obj fields2 => exact Or.inl (by simp [bridgeStep, hv, hid])
          · exact Or.inl (by simp [bridgeStep, hv])

/-- C1, counterexample. The claim expects the absence of the id between the
two stable episodes to re-arm it, so that the second episode fires again.
At the concrete instance with threshold 10 and duration 2, the id 7 held
still at the point 100 100 during seconds 0 to 2, was absent from second 2
to second 7, which exceeds twice the duration, and held still again during
seconds 7 to 9: the second episode yields no fire, because the scan loop
never clears a triggered flag on absence, so the claim as stated is false. -/
theorem c1_grace_reset_cex : ¬ claimC1Prop 10 2 := by
  intro h
  have hc := h 7 Json.null
      [⟨100, 100, 0⟩, ⟨100, 100, 1⟩, ⟨100, 100, 2⟩]
      [⟨100, 100, 7⟩, ⟨100, 100, 8⟩, ⟨100, 100, 9⟩]
      (by decide) (by decide) (by decide) (by decide) (by decide) (by decide)
      (by decide) (by decide)
  exact absurd hc.2.2 (by decide)

/-- C1, amended. For every target marker id observed continuously at a
fixed position for at least the stability duration, the tracker fires
exactly once, on the first observation, and every subsequent ingest call
returns alreadyTriggered indefinitely: an absence of twice the stability
duration, or any absence at all, never re-arms the id, since no code path
of the scan loop clears a triggered flag. -/
theorem c1_fire_once_then_already_forever (thr dur : Int) (id : Int)
    (payload : Json) (e1 e2 : List Obs)
    (h1 : chronB (e1 ++ e2) = true)
    (h2 : pairwiseStableB thr e1 = true) (h3 : spanB dur e1 = true)
    (h4 : stepGapB dur e1 = true)
    (h5 : pairwiseStableB thr e2 = true) (h6 : spanB dur e2 = true)
    (h7 : stepGapB dur e2 = true)
    (h8 : gapB (2 * dur) e1 e2 = true) :
    countFire ((ingestRun (singleTarget id payload) id (e1 ++ e2)).2.take e1.length) = 1 ∧
    afterFireAllAlready ((ingestRun (singleTarget id payload) id (e1 ++ e2)).2) = true ∧
    countFire ((ingestRun (singleTarget id payload) id (e1 ++ e2)).2.drop e1.length) = 0 := by
  obtain ⟨o, e1x, rfl⟩ : ∃ o e1x, e1 = o :: e1x := by
    cases e1 with
    | nil => simp [spanB] at h3
    | cons o e1x => exact ⟨o, e1x, rfl⟩
  rw [List.cons_append, ingestRun_singleTarget]
  refine ⟨?_, ?_, ?_⟩
  · rw [List.length_cons, List.take_succ_cons]
    have h0 : countFire ((List.replicate (e1x ++ e2).length
        TriggerDecision.alreadyTriggered).take e1x.length) = 0 :=
      countFire_of_sublist_already (List.take_sublist _ _)
    have h1 := countFire_replicate e1x.length
    simp only [countFire] at h0 h1
    simp only [countFire, List.count_cons] at h0 ⊢
    simp [h0, h1]
  · simp [afterFireAllAlready, all_already_replicate]
  · rw [List.length_cons, List.drop_succ_cons]
    exact countFire_of_sublist_already (List.drop_sublist _ _)

/-- C1, witness: the amended statement evaluated on the concrete two
episode scenario of the counterexample. -/
theorem c1_fire_once_then_already_forever_witness :
    chronB (([⟨100, 100, 0⟩, ⟨100, 100, 1⟩, ⟨100, 100, 2⟩] : List Obs)
        ++ [⟨100, 100, 7⟩, ⟨100, 100, 8⟩, ⟨100, 100, 9⟩]) = true ∧
    countFire ((ingestRun (singleTarget 7 Json.null) 7
        (([⟨100, 100, 0⟩, ⟨100, 100, 1⟩, ⟨100, 100, 2⟩] : List Obs)
          ++ [⟨100, 100, 7⟩, ⟨100, 100, 8⟩, ⟨100, 100, 9⟩])).2.take 3) = 1 ∧
    countFire ((ingestRun (singleTarget 7 Json.null) 7
        (([⟨100, 100, 0⟩, ⟨100, 100, 1⟩, ⟨100, 100, 2⟩] : List Obs)
          ++ [⟨100, 100, 7⟩, ⟨100, 100, 8⟩, ⟨100, 100, 9⟩])).2.drop 3) = 0 := by
  have h := c1_fire_once_then_already_forever 10 2 7 Json.null
      [⟨100, 100, 0⟩, ⟨100, 100, 1⟩, ⟨100, 100, 2⟩]
      [⟨100, 100, 7⟩, ⟨100, 100, 8⟩, ⟨100, 100, 9⟩]
      (by decide) (by decide) (by decide) (by decide) (by decide) (by decide)
      (by decide) (by decide)
  exact ⟨by decide, h.1, h.2.2⟩

/-- C2, counterexample. At threshold 10 and duration 2, the id 7 is seen at
the point 100 100 at second 0 and at the point 300 100 at second 1: the two
observations are one second apart, inside one stability window, and two
hundred pixels apart, far beyond the threshold, yet the first ingest call
fires, so a moving span does fire and the claim as stated is false. -/
theorem c2_moving_span_fires_cex : ¬ claimC2Prop 10 2 := by
  intro h
  have hc := h 7 Json.null [⟨100, 100, 0⟩, ⟨300, 100, 1⟩] (by decide) (by decide)
  exact absurd hc (by decide)

/-- C2, amended. Movement never suppresses firing: over any chronological
span of a watched id in which some two observations inside one stability
window are farther apart than the threshold, the tracker still fires
exactly once, on the first observation of the span, because the scan loop
never reads positions. -/
theorem c2_movement_never_suppresses (thr dur : Int) (id : Int)
    (payload : Json) (l : List Obs)
    (h1 : chronB l = true) (h2 : movedB thr dur l = true) :
    countFire ((ingestRun (singleTarget id payload) id l).2) = 1 := by
  obtain ⟨o, rest, rfl⟩ : ∃ o rest, l = o :: rest := by
    cases l with
    | nil => simp [movedB] at h2
    | cons o rest => exact ⟨o, rest, rfl⟩
  rw [ingestRun_singleTarget]
  exact countFire_fire_cons_replicate _

/-- C2, witness: the amended statement evaluated on the concrete moving
span of the counterexample. -/
theorem c2_movement_never_suppresses_witness :
    movedB 10 2 ([⟨100, 100, 0⟩, ⟨300, 100, 1⟩] : List Obs) = true ∧
    countFire ((ingestRun (singleTarget 7 Json.null) 7
        ([⟨100, 100, 0⟩, ⟨300, 100, 1⟩] : List Obs)).2) = 1 :=
  ⟨by decide, c2_movement_never_suppresses 10 2 7 Json.null
      [⟨100, 100, 0⟩, ⟨300, 100, 1⟩] (by decide) (by decide)⟩

/-- C3, counterexample. The claim makes the per frame sweep the sole path
by which a previously fired id becomes able to fire again; but setTargetId
on a triggered id discards its triggered flag with no sweep involved. At
the concrete state watching id 7 with the flag set, updating the payload
of id 7 leaves the flag cleared, so the soleness conjunct of the claim as
stated is false; its purge conjunct is additionally unrealizable, since
the scan loop never stores any position history to purge. -/
theorem c3_sole_path_cex : ¬ claimC3Prop 2 := by
  intro h
  have hc := h.2
      { markerPositions := [], targetIds := [(7, Json.null)], triggeredIds := [7] }
      7 Json.null (by decide)
  exact absurd hc (by decide)

/-- C3, amended. No per frame sweep exists: the end of frame cleanup of the
scan loop performs no state change, so absence never purges history or
clears a triggered flag; frame processing itself never removes an id from
the triggered set; and a previously fired id becomes able to fire again
only through setTargetId on that id or through resetTriggeredIds. -/
theorem c3_no_sweep_only_explicit_rearm :
    (∀ (st : ScannerState) (visible : List Int) (now : Int),
        frameCleanup visible now st = st) ∧
    (∀ (throws : Int → Bool) (w : Int) (st : ScannerState)
        (ds : List Detection) (id : Int),
        st.triggeredIds.contains id = true →
        (processFrame throws w st ds).1.triggeredIds.contains id = true) ∧
    (∀ (st : ScannerState) (id : Int) (data : Json),
        (setTargetId st id data).triggeredIds.contains id = false) ∧
    (∀ (st : ScannerState), (resetTriggeredIds st).triggeredIds = []) := by
  refine ⟨fun st visible now => rfl, ?_, ?_, fun st => rfl⟩
  · exact fun throws w st ds id h => processFrame_triggered_mono throws w st ds id h
  · exact fun st id data => contains_filter_ne_self st.triggeredIds id

/-- C3, witness: the amended statement evaluated at a concrete triggered
state and an absent frame. -/
theorem c3_no_sweep_only_explicit_rearm_witness :
    ({ markerPositions := [], targetIds := [(7, Json.null)],
        triggeredIds := [7] } : ScannerState).triggeredIds.contains 7 = true ∧
    (processFrame (fun _ => false) 1920
      { markerPositions := [], targetIds := [(7, Json.null)], triggeredIds := [7] }
      []).1.triggeredIds.contains 7 = true :=
  ⟨by decide, c3_no_sweep_only_explicit_rearm.2.1 (fun _ => false) 1920
      { markerPositions := [], targetIds := [(7, Json.null)], triggeredIds := [7] }
      [] 7 (by decide)⟩

/-- C4, counterexample. A message keyed by id reaches no handler branch of
the parse method: on the empty store, the message with id 3 and data X
leaves the store empty and returns False, while the claim requires the
entry 3 to be set and True returned, so the claim as stated is false. -/
theorem c4_id_key_cex : ¬ claimC4Prop := by
  intro h
  have hc := (h [] 3 (Json.str "X")).1
  have hb : false = true := congrArg (fun r => r.2) hc
  exact Bool.noConfusion hb

/-- C4, amended. The wire protocol keys update messages by aruco_id and
aruco_ids, not by id: an update keyed aruco_id sets the entry; a clear
command keyed aruco_id does not remove the entry, because the update
branch tests key presence first and consumes the message, setting the
entry to null instead; and messages keyed by id are discarded with the
store unchanged. -/
theorem c4_wire_keys_aruco_id (store : Store) (n : Int) (p : Json) :
    parseMessage (some (Json.obj [("aruco_id", Json.num n), ("data", p)])) store
      = (dictSet store n p, true) ∧
    parseMessage (some (Json.obj [("command", Json.str "clear"),
        ("aruco_id", Json.num n)])) store
      = (dictSet store n Json.null, true) ∧
    parseMessage (some (Json.obj [("id", Json.num n), ("data", p)])) store
      = (store, false) ∧
    parseMessage (some (Json.obj [("command", Json.str "clear"),
        ("id", Json.num n)])) store
      = (store, false) :=
  ⟨rfl, rfl, rfl, rfl⟩

/-- C5, counterexample. The multi id update with id list 1 and the string
zz fails partway: the conversion of zz raises after the entry 1 was
already set, the exception is caught and the method returns False, yet the
store now holds the entry 1, so a failing update is not atomic and the
claim as stated is false. -/
theorem c5_partial_multi_update_cex : ¬ claimC5Prop := by
  intro h
  have hc := h (some (Json.obj [("aruco_ids", Json.arr [Json.num 1, Json.str "zz"]),
      ("data", Json.str "p")])) [] rfl
  exact List.noConfusion hc

/-- C5, amended. Invalid JSON, non object messages, and single id updates
whose id conversion fails all leave the store unchanged; but a multi id
update failing partway keeps the assignments already applied before the
failure, exhibited both in general form and on the concrete message of
the counterexample. -/
theorem c5_failure_is_logged_not_rolled_back :
    (∀ (store : Store), parseMessage Option.none store = (store, false)) ∧
    (∀ (store : Store) (n : Int),
        parseMessage (some (Json.num n)) store = (store, false)) ∧
    (∀ (store : Store) (s : String) (p : Json), pyStrToInt s = Option.none →
        parseMessage (some (Json.obj [("aruco_id", Json.str s), ("data", p)])) store
          = (store, false)) ∧
    (∀ (store : Store) (k : Int) (bad : Json) (rest : List Json) (payload : Json),
        pyInt bad = Option.none →
        setMany store (Json.num k :: bad :: rest) payload
          = (dictSet store k payload, false)) ∧
    parseMessage (some (Json.obj [("aruco_ids", Json.arr [Json.num 1, Json.str "zz"]),
        ("data", Json.str "p")])) [] = ([(1, Json.str "p")], false) := by
  refine ⟨fun store => rfl, fun store n => rfl, ?_, ?_, rfl⟩
  · intro store s p h
    simp [parseMessage, getField, getD, pyInt, h]
  · intro store k bad rest payload h
    cases bad with
    | num n => simp [pyInt] at h
    | bool b => simp [pyInt] at h
    | str s =>
        simp only [pyInt] at h
        simp [setMany, pyInt, h]
    | null => simp [setMany, pyInt]
    | arr elems => simp [setMany, pyInt]
    | obj fields => simp [setMany, pyInt]

/-- C5, witness: the amended statement evaluated at a concrete failing
single id update over a nonempty store. -/
theorem c5_failure_is_logged_not_rolled_back_witness :
    pyStrToInt "zz" = Option.none ∧
    parseMessage (some (Json.obj [("aruco_id", Json.str "zz"),
        ("data", Json.str "X")])) [(5, Json.null)] = ([(5, Json.null)], false) :=
  ⟨rfl, c5_failure_is_logged_not_rolled_back.2.2.1 [(5, Json.null)] "zz"
      (Json.str "X") rfl⟩

/-- C6, counterexample. On a successful connection with no inbound message,
the effect trace of the listen method holds the connected callback and the
disconnected callback and no outbound send at all, while the claim requires
exactly one identification send, so the claim as stated is false. -/
theorem c6_send_count_cex : ¬ claimC6Prop := by
  intro h
  exact absurd (h [] []).1 (by decide)

/-- C6, amended. The client sends no outbound message during the listen
method at all: on every successful connection it invokes the connected
callback and enters the receive loop directly, with no identification
message of any shape. -/
theorem c6_no_identification_sent :
    ∀ (msgs : List (Option Json)) (store : Store),
      countSends ((listenEffects msgs store).2) = 0 := by
  intro msgs store
  simp only [countSends]
  rw [List.countP_eq_zero]
  intro e he
  simp only [listenEffects, List.mem_cons] at he
  rcases he with rfl | he2
  · simp [isSendEffect]
  · rcases List.mem_append.mp he2 with hloop | hlast
    · have h0 := listenLoop_no_send msgs store e hloop
      simp [h0]
    · rcases List.mem_singleton.mp hlast with rfl
      simp [isSendEffect]

/-- C7. The registry contract of the target store holds as specified: a set
followed by a snapshot contains the new entry; a clear empties the next
snapshot; a remove of a missing id is a no-op, not an error, thanks to the
membership guard around the deletion; and the snapshot agrees with the
store at the moment it is taken, further mutations producing new store
values that leave an earlier snapshot untouched. -/
theorem c7_registry_contract (store : Store) (k j : Int) (p : Json) :
    dictGet (snapshot (dictSet store k p)) k = some p ∧
    snapshot (clearStore store) = [] ∧
    (dictHas store k = false → removeId store k = store) ∧
    dictGet (snapshot store) j = dictGet store j := by
  refine ⟨dictGet_dictSet_self store k p, rfl, ?_, rfl⟩
  intro h
  simp [removeId, h]

/-- C7, witness: the contract evaluated at a concrete store, with the
remove applied to a missing id. -/
theorem c7_registry_contract_witness :
    dictHas [(1, Json.null)] 2 = false ∧
    removeId [(1, Json.null)] 2 = [(1, Json.null)] ∧
    dictGet (snapshot (dictSet [(1, Json.null)] 2 (Json.str "X"))) 2
      = some (Json.str "X") :=
  ⟨by decide, (c7_registry_contract [(1, Json.null)] 2 1 (Json.str "X")).2.2.1
      (by decide), (c7_registry_contract [(1, Json.null)] 2 1 (Json.str "X")).1⟩

/-- C8. A handler exception during dispatch is contained: the scanner state
and the observable decisions and dispatches of a frame are identical to
those of a run whose handler never raises, every marker of the frame is
still processed, and for every targeted marker of the frame the triggered
flag is set afterwards, so a later observation of it is suppressed as
alreadyTriggered and the trigger is never treated as undelivered. -/
theorem c8_handler_fault_contained (throws : Int → Bool) (w : Int)
    (st : ScannerState) (ds : List Detection) :
    (processFrame throws w st ds).1 = (processFrame (fun _ => false) w st ds).1 ∧
    (processFrame throws w st ds).2.map (fun e => (e.1, e.2.1))
      = (processFrame (fun _ => false) w st ds).2.map (fun e => (e.1, e.2.1)) ∧
    ∀ (d : Detection), d ∈ ds → dictHas st.targetIds d.id = true →
      (processFrame throws w st ds).1.triggeredIds.contains d.id = true ∧
      (processMarker throws w (processFrame throws w st ds).1 d).2.1
        = TriggerDecision.alreadyTriggered := by
  refine ⟨processFrame_state_of_throws throws w st ds,
    processFrame_obs_of_throws throws w st ds, ?_⟩
  intro d hd hT
  have hc := processFrame_triggered_of_mem throws w st ds d hd hT
  refine ⟨hc, ?_⟩
  have hT2 : dictHas (processFrame throws w st ds).1.targetIds d.id = true := by
    rw [processFrame_targetIds]
    exact hT
  have hm : d.id ∈ (processFrame throws w st ds).1.triggeredIds := by simpa using hc
  simp [processMarker, hT2, hm]

/-- C8, witness: a frame with two markers whose handler raises on id 7,
evaluated concretely. -/
theorem c8_handler_fault_contained_witness :
    (⟨7, 960, 540⟩ : Detection) ∈ ([⟨7, 960, 540⟩, ⟨9, 10, 10⟩] : List Detection) ∧
    (processFrame (fun i => i == 7) 1920 (singleTarget 7 Json.null)
      [⟨7, 960, 540⟩, ⟨9, 10, 10⟩]).1.triggeredIds.contains 7 = true ∧
    (processMarker (fun i => i == 7) 1920
      (processFrame (fun i => i == 7) 1920 (singleTarget 7 Json.null)
        [⟨7, 960, 540⟩, ⟨9, 10, 10⟩]).1 ⟨7, 960, 540⟩).2.1
      = TriggerDecision.alreadyTriggered := by
  have h := (c8_handler_fault_contained (fun i => i == 7) 1920
      (singleTarget 7 Json.null) [⟨7, 960, 540⟩, ⟨9, 10, 10⟩]).2.2
      ⟨7, 960, 540⟩ (List.mem_cons_self _ _) (by decide)
  exact ⟨List.mem_cons_self _ _, h.1, h.2⟩

/-- C9. Updating the payload of a target through setTargetId also discards
the id from the triggered set: afterwards the id is a watched target, its
triggered flag is clear, and the very next detection of it fires, even
though the id was never absent. -/
theorem c9_set_target_rearms (st : ScannerState) (id : Int) (data : Json) :
    dictHas (setTargetId st id data).targetIds id = true ∧
    (setTargetId st id data).triggeredIds.contains id = false ∧
    (processMarker (fun _ => false) 1920 (setTargetId st id data)
      { id := id, x := 0, y := 0 }).2.1 = TriggerDecision.fire := by
  have h1 : dictHas (setTargetId st id data).targetIds id = true :=
    dictHas_dictSet_self st.targetIds id data
  have h2 : (setTargetId st id data).triggeredIds.contains id = false :=
    contains_filter_ne_self st.triggeredIds id
  refine ⟨h1, h2, ?_⟩
  have hm : id ∉ (setTargetId st id data).triggeredIds := by simpa using h2
  simp [processMarker, h1, hm]

/-- C10. Message processing never removes an id from the target set of the
scanner: for every inbound message the integration callbacks at most add
or update scanner targets, so any id previously handed to the scanner
stays a watched target; and the reset command and the per id clear command
mutate only the store of the client, leaving the scanner state untouched,
the reset emptying the store. -/
theorem c10_targets_survive_reset_clear (raw : Option Json) (st : BridgeState)
    (k n : Int) :
    (dictHas st.scanner.targetIds k = true →
      dictHas (bridgeStep raw st).1.scanner.targetIds k = true) ∧
    (bridgeStep (some (Json.obj [("command", Json.str "reset")])) st).1.scanner
      = st.scanner ∧
    (bridgeStep (some (Json.obj [("command", Json.str "reset")])) st).1.store = [] ∧
    (bridgeStep (some (Json.obj [("command", Json.str "clear"),
        ("aruco_id", Json.num n)])) st).1.scanner = st.scanner := by
  refine ⟨?_, rfl, rfl, rfl⟩
  intro h
  rcases bridgeStep_scanner_cases raw st with hs | ⟨n2, m2, hs⟩
  · rw [hs]
    exact h
  · rw [hs]
    exact dictHas_dictSet_mono st.scanner.targetIds n2 k m2 h

/-- C10, witness: a reset message processed over a bridge state watching
id 7, evaluated concretely. -/
theorem c10_targets_survive_reset_clear_witness :
    dictHas (singleTarget 7 Json.null).targetIds 7 = true ∧
    dictHas (bridgeStep (some (Json.obj [("command", Json.str "reset")]))
      { store := [(7, Json.str "X")],
        scanner := singleTarget 7 Json.null }).1.scanner.targetIds 7 = true :=
  ⟨by decide, (c10_targets_survive_reset_clear
      (some (Json.obj [("command", Json.str "reset")]))
      { store := [(7, Json.str "X")], scanner := singleTarget 7 Json.null }
      7 0).1 (by decide)⟩

end WizzyWorks
